import Mathlib

/-!
Verification development for the `dbgmcp` session engine.

The engine (src/lib.rs) drives an interactive CLI debugger as a child
process.  Its core, `CLIDebugSession::read_response_until`, repeatedly races
three events in a `tokio::select!` loop: a line completed on the child's
stdout, a line completed on the child's stderr, and the expiry of a single
pinned sleep.  We embed the engine shallowly:

* a single read call sees the child's two output streams as one merged,
  time-stamped list of line-read completion events (`TEv`); the order of the
  list is the order in which the select loop observes the events, and the
  time stamp is the instant the event becomes ready;
* the sleep expires at `clock + timeout`; an event stamped at or after that
  deadline is not observed by this call (the sleep branch wins first);
* an event's payload is the text the `read_line` call deposited in the
  line buffer: a normal line (ending in a newline), or `""` for a read that
  completed with no data (end-of-stream on a closed pipe), or a "failed"
  read, modelling a `read_line` future that completed with `Err` — the
  source discards that `Result` (the select arms bind it to `_`) and still
  pushes the buffer contents.

Machine integers are modelled as `Nat` with explicit `% 2 ^ w` where the
source truncates (`generate_session_id` casts an `AtomicUsize` counter
`as u32`).
-/

namespace Dbgmcp

/-- Boolean substring test: `containsB hay needle` is `true` exactly when
`needle` occurs as a contiguous substring of `hay`.  This models Rust's
`str::contains` with a literal pattern, as used by the prompt/pattern checks
in `read_response_until`. -/
def containsB (hay needle : String) : Bool :=
  decide (needle.data <:+: hay.data)

/-- One line-read completion event observed by the select loop of
`read_response_until`.  `out`/`err` are successful `read_line` completions on
the stdout / stderr stream carrying the text deposited in the line buffer
(`""` models end-of-stream: a completed read with no data).  `outFail` /
`errFail` model a `read_line` that completed with `Err`: the source ignores
the `io::Result` (binder `_` in the select arm) and still pushes whatever the
call left in the buffer. -/
inductive Ev where
  | out (line : String)
  | err (line : String)
  | outFail (buffered : String)
  | errFail (buffered : String)
  deriving DecidableEq

/-- Text appended to the accumulator by one select-arm execution: stdout text
is appended unmarked, stderr text is preceded by the `"[stderr] "` marker
(the stderr arm pushes the marker unconditionally, before the buffer). -/
def chunkOf : Ev → String
  | .out line => line
  | .err line => "[stderr] " ++ line
  | .outFail buffered => buffered
  | .errFail buffered => "[stderr] " ++ buffered

/-- Accumulator update performed by the stdout/stderr select arms of
`read_response_until` (src/lib.rs lines 112-118). -/
def appendEv (output : String) (e : Ev) : String :=
  output ++ chunkOf e

/-- Completion condition checked after each appended line (src/lib.rs lines
133-140): with a pattern, the accumulator must contain both the pattern and
the prompt; without one, only the prompt. -/
def done (prompt : String) (pat : Option String) (output : String) : Bool :=
  match pat with
  | some p => containsB output p && containsB output prompt
  | none => containsB output prompt

/-- Errors surfaced by the engine, modelling `std::io::Error`:
`timedOut` is the `ErrorKind::TimedOut` error built in the sleep arm;
`broken` carries the OS error text of a failed pipe write or process wait. -/
inductive IOErr where
  | timedOut
  | broken (msg : String)
  deriving DecidableEq

/-- Result of the sleep arm of the select loop (src/lib.rs lines 119-128):
an empty accumulator fails with `TimedOut`, a non-empty one is returned as a
partial `Ok`. -/
def timeoutResult (output : String) : Except IOErr String :=
  if output = "" then .error .timedOut else .ok output

/-- A time-stamped event: `t` is the instant (in milliseconds) the line read
becomes ready. -/
structure TEv where
  t : Nat
  ev : Ev
  deriving DecidableEq

/-- The select loop of `read_response_until` (src/lib.rs lines 110-141) over
the merged event list.  `deadline` is the expiry instant of the pinned sleep;
an event ready at or after the deadline is not observed (the sleep branch
completes first).  Returns the result, the instant the call returned, and
the unconsumed events (still buffered for a later read). -/
def readLoop (prompt : String) (pat : Option String) (deadline : Nat) :
    Nat → String → List TEv → Except IOErr String × Nat × List TEv
  | _, output, [] => (timeoutResult output, deadline, [])
  | clock, output, e :: rest =>
    if e.t < deadline then
      let output' := appendEv output e.ev
      if done prompt pat output' then (.ok output', max clock e.t, rest)
      else readLoop prompt pat deadline (max clock e.t) output' rest
    else (timeoutResult output, deadline, e :: rest)

/-- State of one `CLIDebugSession` (src/lib.rs lines 13-20): the pending
merged output/error events of the child, the current instant, whether the
child's stdin pipe still accepts writes, whether `child.wait()` succeeds,
and the configured prompt and quit command. -/
structure CLIDebugSession where
  stream : List TEv
  clock : Nat
  stdin_ok : Bool
  wait_ok : Bool
  prompt : String
  quit_command : String
  deriving DecidableEq

/-- Embeds `CLIDebugSession::read_response_until` (src/lib.rs lines 98-142):
runs the select loop with the sleep expiring `timeout` milliseconds from the
session's current instant, returning the result together with the session
state after the call. -/
def read_response_until (s : CLIDebugSession) (pat : Option String) (timeout : Nat) :
    Except IOErr String × CLIDebugSession :=
  let r := readLoop s.prompt pat (s.clock + timeout) s.clock "" s.stream
  (r.1, { s with clock := r.2.1, stream := r.2.2 })

/-- The default read timeout `CHILD_READ_TIMEOUT = Duration::from_secs(10)`
(src/lib.rs line 87), in milliseconds. -/
def CHILD_READ_TIMEOUT : Nat := 10000

/-- Embeds `CLIDebugSession::read_response` (src/lib.rs lines 146-149):
`read_response_until` with no pattern and the default timeout. -/
def read_response (s : CLIDebugSession) : Except IOErr String × CLIDebugSession :=
  read_response_until s none CHILD_READ_TIMEOUT

/-- Embeds `CLIDebugSession::send_command` (src/lib.rs lines 90-95): writing
the command and newline to the child's stdin fails exactly when the pipe no
longer accepts writes (the command text itself does not influence success). -/
def send_command (s : CLIDebugSession) (_command : String) : Except IOErr Unit :=
  if s.stdin_ok then .ok () else .error (.broken "Broken pipe (os error 32)")

/-- Rust's `Result::unwrap_or_default()` on a `Result<String, _>`: the
default `String` is empty. -/
def unwrapOrDefault : Except IOErr String → String
  | .ok s => s
  | .error _ => ""

/-- The one-millisecond drain timeout of `execute_command`
(src/lib.rs line 157). -/
def one_msecond : Nat := 1

/-- Embeds `CLIDebugSession::execute_command` (src/lib.rs lines 153-171):
drain with a 1 ms timeout, send the command, read the main response with the
default timeout, drain once more with 1 ms, and return the concatenation;
each drain's error is discarded by `unwrap_or_default`. -/
def execute_command (s : CLIDebugSession) (command : String) :
    Except IOErr String × CLIDebugSession :=
  let pre := read_response_until s none one_msecond
  let response := unwrapOrDefault pre.1
  match send_command pre.2 command with
  | .error e => (.error e, pre.2)
  | .ok _ =>
    match read_response pre.2 with
    | (.error e, s2) => (.error e, s2)
    | (.ok main, s2) =>
      let post := read_response_until s2 none one_msecond
      (.ok (response ++ main ++ unwrapOrDefault post.1), post.2)

/-- Embeds `CLIDebugSession::terminate` (src/lib.rs lines 174-179): send the
configured quit command, then wait for the child to exit; either step's
failure is surfaced. -/
def terminate (s : CLIDebugSession) : Except IOErr Unit × CLIDebugSession :=
  match send_command s s.quit_command with
  | .error e => (.error e, s)
  | .ok _ => if s.wait_ok then (.ok (), s) else (.error (.broken "No child processes (os error 10)"), s)

/-- Rendering of an `IOErr` through `std::io::Error`'s `Display`: the timeout
error carries the message installed at its creation site (src/lib.rs line
124), a pipe/wait error carries the OS error text. -/
def IOErr.render : IOErr → String
  | .timedOut => "Timeout while waiting for response"
  | .broken msg => msg

/-- The session registry of the gdb tool server (src/bin/gdb.rs line 14):
a map from session identifiers to sessions, modelled as an association list
with unique keys. -/
abbrev Sessions := List (String × CLIDebugSession)

/-- Lookup in the registry, modelling `HashMap::get_mut` on the key. -/
def findSession : Sessions → String → Option CLIDebugSession
  | [], _ => none
  | (k, s) :: rest, id => if k = id then some s else findSession rest id

/-- Write-back of the session state mutated through the `get_mut` reference:
replaces the entry at the key, leaving the rest of the registry unchanged. -/
def storeSession : Sessions → String → CLIDebugSession → Sessions
  | [], _, _ => []
  | (k, s0) :: rest, id, s =>
    if k = id then (k, s) :: rest else (k, s0) :: storeSession rest id s

/-- Removal of a key, modelling `HashMap::remove`. -/
def removeSession : Sessions → String → Sessions
  | [], _ => []
  | (k, s) :: rest, id =>
    if k = id then removeSession rest id else (k, s) :: removeSession rest id

/-- The "session not found" error text produced by every tool method of
`GdbServer` when the identifier is absent (src/bin/gdb.rs lines 76-79,
113-117, 137-141, 159-163). -/
def notFoundMsg (id : String) : String :=
  "Session with ID " ++ id ++ " not found. Start a new session"

/-- Embeds `GdbServer::gdb_command` (src/bin/gdb.rs lines 103-125): look the
session up, run `execute_command`, and format the response or the error; the
session's mutated state is written back in either case. -/
def gdb_command (m : Sessions) (id command : String) : Except String String × Sessions :=
  match findSession m id with
  | none => (.error (notFoundMsg id), m)
  | some s =>
    match execute_command s command with
    | (.error e, s') =>
      (.error ("Failed to execute GDB command. [Error]: " ++ e.render), storeSession m id s')
    | (.ok r, s') =>
      (.ok ("Command executed.\n[GDB output]: " ++ r), storeSession m id s')

/-- Embeds `GdbServer::gdb_load` (src/bin/gdb.rs lines 62-101): look the
session up, run `file <program>` and, when arguments are given,
`set args <arguments>`, concatenating the responses. -/
def gdb_load (m : Sessions) (id program : String) (arguments : Option (List String)) :
    Except String String × Sessions :=
  match findSession m id with
  | none => (.error (notFoundMsg id), m)
  | some s =>
    match execute_command s ("file " ++ program) with
    | (.error e, s') =>
      (.error ("Failed to load program. [Error]: " ++ e.render), storeSession m id s')
    | (.ok r, s') =>
      match arguments with
      | none => (.ok ("Program loaded into GDB.\n [GDB output]: " ++ r), storeSession m id s')
      | some args =>
        match execute_command s' ("set args " ++ String.intercalate " " args) with
        | (.error e, s'') =>
          (.error ("Failed to load program. [Error]: " ++ e.render), storeSession m id s'')
        | (.ok r2, s'') =>
          (.ok ("Program loaded into GDB.\n [GDB output]: " ++ (r ++ r2)), storeSession m id s'')

/-- Embeds `GdbServer::gdb_wait` (src/bin/gdb.rs lines 127-150): look the
session up and read until the `"*stopped"` pattern with a caller-supplied
timeout in seconds (default 10). -/
def gdb_wait (m : Sessions) (id : String) (timeout : Option Nat) :
    Except String String × Sessions :=
  match findSession m id with
  | none => (.error (notFoundMsg id), m)
  | some s =>
    match read_response_until s (some "*stopped") (1000 * timeout.getD 10) with
    | (.error e, s') =>
      (.error ("Failed to read from GDB session. [Error]: " ++ e.render), storeSession m id s')
    | (.ok r, s') =>
      (.ok ("GDB debugee stopped.\n[GDB output]: " ++ r), storeSession m id s')

/-- Embeds `GdbServer::gdb_terminate` (src/bin/gdb.rs lines 152-171): look
the session up and terminate it; only on success is the identifier removed
from the registry (a failed `terminate` leaves the entry in place). -/
def gdb_terminate (m : Sessions) (id : String) : Except String String × Sessions :=
  match findSession m id with
  | none => (.error (notFoundMsg id), m)
  | some s =>
    match terminate s with
    | (.error e, s') =>
      (.error ("Failed to terminate GDB session. [Error]: " ++ e.render), storeSession m id s')
    | (.ok _, _) =>
      (.ok "GDB session terminated", removeSession m id)

/-- Embeds `generate_session_id` (src/lib.rs lines 183-186).  The state is
the number of calls made so far, held in an `AtomicUsize` that wraps at
`2 ^ 64`; `fetch_add(1)` returns the previous value, which is truncated
`as u32`.  Returns the generated identifier and the next state. -/
def generate_session_id (counter : Nat) : Nat × Nat :=
  (counter % 2 ^ 32, (counter + 1) % 2 ^ 64)

/-- The identifiers produced by `n` sequential `generate_session_id` calls
starting from counter state `st`. -/
def genIds : Nat → Nat → List Nat
  | _, 0 => []
  | st, n + 1 => (generate_session_id st).1 :: genIds (generate_session_id st).2 n

/-- State of the duplicated engine variant `GdbSession` (src/gdb.rs lines
148-153); it has no configurable prompt or quit command. -/
structure GdbSession where
  stream : List TEv
  clock : Nat
  stdin_ok : Bool
  wait_ok : Bool
  deriving DecidableEq

/-- The select loop of the duplicated variant `GdbSession::read_response`
(src/gdb.rs lines 179-210): same stdout/stderr arms as the canonical engine,
but the prompt is the literal `"(gdb)"`, there is no pattern argument, and
the sleep arm always breaks `Ok` after appending the literal text
`"[GDB timeout]"` to the accumulator. -/
def gdbReadLoop (deadline : Nat) :
    Nat → String → List TEv → Except IOErr String × Nat × List TEv
  | _, output, [] => (.ok (output ++ "[GDB timeout]"), deadline, [])
  | clock, output, e :: rest =>
    if e.t < deadline then
      let output' := appendEv output e.ev
      if containsB output' "(gdb)" then (.ok output', max clock e.t, rest)
      else gdbReadLoop deadline (max clock e.t) output' rest
    else (.ok (output ++ "[GDB timeout]"), deadline, e :: rest)

/-- Embeds `GdbSession::read_response` (src/gdb.rs lines 179-210) with its
fixed 10 s timeout. -/
def GdbSession.read_response (s : GdbSession) : Except IOErr String × GdbSession :=
  let r := gdbReadLoop (s.clock + CHILD_READ_TIMEOUT) s.clock "" s.stream
  (r.1, { s with clock := r.2.1, stream := r.2.2 })

/-- Accumulator produced by folding the select-arm append over a list of
events, starting from `output`. -/
def foldAppend (output : String) (evs : List TEv) : String :=
  evs.foldl (fun o e => appendEv o e.ev) output

/-- Accumulator produced by a run that consumed exactly `evs`, starting
empty. -/
def accum (evs : List TEv) : String :=
  foldAppend "" evs

/-- The stdout lines of an event list, in order. -/
def outLines (evs : List TEv) : List String :=
  evs.filterMap fun e =>
    match e.ev with
    | .out line => some line
    | _ => none

/-- The stderr lines of an event list, in order. -/
def errLines (evs : List TEv) : List String :=
  evs.filterMap fun e =>
    match e.ev with
    | .err line => some line
    | _ => none

/-- Whether an event is a `read_line` completion whose `io::Result` was an
error (discarded by the `_ =` binders of the select arms). -/
def evFailed : Ev → Bool
  | .outFail _ => true
  | .errFail _ => true
  | _ => false

/-- Whether some read in the event list completed with a (discarded) error. -/
def readDiscardsErr (evs : List TEv) : Bool :=
  evs.any fun e => evFailed e.ev

/-- The event list `evs` is an interleaving of the stdout line sequence `A`
and the stderr line sequence `B`: each stream's lines appear in their own
order, with arbitrary time stamps and arbitrary cross-stream interleaving,
and every event is a successful line read. -/
inductive Interleaves : List String → List String → List TEv → Prop
  | nil : Interleaves [] [] []
  | out {A B evs} (t : Nat) (line : String) (h : Interleaves A B evs) :
      Interleaves (line :: A) B (⟨t, .out line⟩ :: evs)
  | err {A B evs} (t : Nat) (line : String) (h : Interleaves A B evs) :
      Interleaves A (line :: B) (⟨t, .err line⟩ :: evs)

/-- Substring containment is preserved when the haystack grows on the
right. -/
theorem containsB_append_right (a b needle : String) (h : containsB a needle = true) :
    containsB (a ++ b) needle = true := by
  simp only [containsB, decide_eq_true_iff] at h ⊢
  rw [String.data_append]
  exact h.trans ⟨[], b.data, by simp⟩

/-- The completion condition is monotone: once met, it stays met as the
accumulator grows. -/
theorem done_append (prompt : String) (pat : Option String) (out more : String)
    (h : done prompt pat out = true) : done prompt pat (out ++ more) = true := by
  cases pat with
  | none => exact containsB_append_right _ _ _ h
  | some p =>
    simp only [done, Bool.and_eq_true] at h ⊢
    exact ⟨containsB_append_right _ _ _ h.1, containsB_append_right _ _ _ h.2⟩

theorem foldAppend_cons (output : String) (e : TEv) (evs : List TEv) :
    foldAppend output (e :: evs) = foldAppend (appendEv output e.ev) evs := rfl

/-- Folding the select-arm append only extends the accumulator on the
right. -/
theorem foldAppend_extend (output : String) (evs : List TEv) :
    ∃ more, foldAppend output evs = output ++ more := by
  induction evs generalizing output with
  | nil => exact ⟨"", (String.append_empty output).symm⟩
  | cons e tl ih =>
    rcases ih (appendEv output e.ev) with ⟨m, hm⟩
    exact ⟨chunkOf e.ev ++ m, by rw [foldAppend_cons, hm, appendEv, String.append_assoc]⟩

/-- If the completion condition fails on the accumulator at the end of a
run, it failed at every intermediate stage of that run. -/
theorem done_foldAppend_false (prompt : String) (pat : Option String)
    (output : String) (evs : List TEv)
    (h : done prompt pat (foldAppend output evs) = false) :
    done prompt pat output = false := by
  rcases foldAppend_extend output evs with ⟨m, hm⟩
  cases hd : done prompt pat output with
  | false => rfl
  | true => rw [hm] at h; rw [done_append _ _ _ _ hd] at h; cases h

/-- Characterization of the select loop on the timeout path: if the
completion condition fails on everything accumulated from the events ready
before the deadline, the loop consumes exactly those events and ends in the
sleep arm. -/
theorem readLoop_timeout (prompt : String) (pat : Option String) (deadline : Nat)
    (stream : List TEv) :
    ∀ (clock : Nat) (output : String),
      done prompt pat (foldAppend output (stream.takeWhile fun e => e.t < deadline)) = false →
      readLoop prompt pat deadline clock output stream =
        (timeoutResult (foldAppend output (stream.takeWhile fun e => e.t < deadline)), deadline,
          stream.dropWhile fun e => e.t < deadline) := by
  induction stream with
  | nil => intro clock output h; rfl
  | cons e rest ih =>
    intro clock output h
    by_cases ht : e.t < deadline
    · have htw : (e :: rest).takeWhile (fun e => e.t < deadline) =
          e :: rest.takeWhile (fun e => e.t < deadline) := by
        simp [List.takeWhile_cons, ht]
      have hdw : (e :: rest).dropWhile (fun e => e.t < deadline) =
          rest.dropWhile (fun e => e.t < deadline) := by
        simp [List.dropWhile_cons, ht]
      rw [htw] at h
      rw [htw, hdw, foldAppend_cons]
      have hstage : done prompt pat (appendEv output e.ev) = false :=
        done_foldAppend_false prompt pat _ _ h
      simp only [readLoop, if_pos ht, hstage, if_neg (by simp [hstage] : ¬done prompt pat (appendEv output e.ev) = true)]
      exact ih (max clock e.t) (appendEv output e.ev) h
    · have htw : (e :: rest).takeWhile (fun e => e.t < deadline) = [] := by
        simp [List.takeWhile_cons, ht]
      have hdw : (e :: rest).dropWhile (fun e => e.t < deadline) = e :: rest := by
        simp [List.dropWhile_cons, ht]
      rw [htw, hdw]
      simp only [readLoop, if_neg ht]
      rfl

/-- The instant at which the loop hands control back after consuming the
listed events (each select arm advances the running maximum of the event
ready-times). -/
def clockAfter (clock : Nat) (evs : List TEv) : Nat :=
  evs.foldl (fun c e => max c e.t) clock

/-- One-step unfolding of the select loop on a non-empty event list. -/
theorem readLoop_cons (prompt : String) (pat : Option String) (deadline clock : Nat)
    (output : String) (x : TEv) (rest : List TEv) :
    readLoop prompt pat deadline clock output (x :: rest) =
      if x.t < deadline then
        if done prompt pat (appendEv output x.ev) = true then
          (.ok (appendEv output x.ev), max clock x.t, rest)
        else readLoop prompt pat deadline (max clock x.t) (appendEv output x.ev) rest
      else (timeoutResult output, deadline, x :: rest) := rfl

/-- Characterization of the select loop on the completion path: if the
completion condition first holds on the accumulator after the events `lead`,
all of which are ready before the deadline, the loop returns `Ok` with
exactly that accumulator, leaving every later event unconsumed. -/
theorem readLoop_complete (prompt : String) (pat : Option String) (deadline : Nat)
    (lead : List TEv) :
    ∀ (rest : List TEv) (clock : Nat) (output : String),
      lead ≠ [] →
      (∀ e ∈ lead, e.t < deadline) →
      (∀ j, 0 < j → j < lead.length →
        done prompt pat (foldAppend output (lead.take j)) = false) →
      done prompt pat (foldAppend output lead) = true →
      readLoop prompt pat deadline clock output (lead ++ rest) =
        (.ok (foldAppend output lead), clockAfter clock lead, rest) := by
  induction lead with
  | nil => intro rest clock output hne _ _ _; exact absurd rfl hne
  | cons x tl ih =>
    intro rest clock output _ hlt hstage hdone
    have hxt : x.t < deadline := hlt x (by simp)
    cases tl with
    | nil =>
      have hdone' : done prompt pat (appendEv output x.ev) = true := by
        simpa [foldAppend] using hdone
      rw [List.cons_append, List.nil_append, readLoop_cons, if_pos hxt, if_pos hdone']
      rfl
    | cons y tl' =>
      have h1 : done prompt pat (appendEv output x.ev) = false := by
        have := hstage 1 (by omega) (by simp)
        simpa [List.take, foldAppend] using this
      rw [List.cons_append, readLoop_cons, if_pos hxt,
        if_neg (by simp [h1] : ¬done prompt pat (appendEv output x.ev) = true)]
      rw [foldAppend_cons] at hdone
      have hrec := ih rest (max clock x.t) (appendEv output x.ev) (by simp)
        (fun e he => hlt e (by simp [he]))
        (fun j hj hjl => by
          have := hstage (j + 1) (by omega) (by simp at hjl ⊢; omega)
          simpa [List.take, foldAppend_cons] using this)
        hdone
      rw [hrec]
      rfl

/-- The select loop's only error is the timeout error built in the sleep
arm. -/
theorem readLoop_error (prompt : String) (pat : Option String) (deadline : Nat)
    (stream : List TEv) :
    ∀ (clock : Nat) (output : String) (e : IOErr) (c : Nat) (rest : List TEv),
      readLoop prompt pat deadline clock output stream = (.error e, c, rest) →
      e = .timedOut := by
  induction stream with
  | nil =>
    intro clock output e c rest h
    simp only [readLoop, timeoutResult] at h
    by_cases ho : output = ""
    · rw [if_pos ho] at h
      cases h
      rfl
    · rw [if_neg ho] at h
      cases h
  | cons x tl ih =>
    intro clock output e c rest h
    simp only [readLoop] at h
    by_cases hxt : x.t < deadline
    · rw [if_pos hxt] at h
      by_cases hd : done prompt pat (appendEv output x.ev) = true
      · simp only [hd, if_true] at h
        cases h
      · simp only [hd, if_false, Bool.false_eq_true] at h
        exact ih _ _ _ _ _ h
    · rw [if_neg hxt] at h
      simp only [timeoutResult] at h
      by_cases ho : output = ""
      · rw [if_pos ho] at h
        cases h
        rfl
      · rw [if_neg ho] at h
        cases h

/-- Every `Ok` result of the select loop is the accumulator over some
consumed initial segment of the event list, the unconsumed events are
exactly the rest, and the loop returned either because the completion
condition held or because the sleep expired with a non-empty accumulator
after every event ready before the deadline had been consumed. -/
theorem readLoop_ok_cases (prompt : String) (pat : Option String) (deadline : Nat)
    (stream : List TEv) :
    ∀ (clock : Nat) (output : String) (s : String) (c : Nat) (rest : List TEv),
      readLoop prompt pat deadline clock output stream = (.ok s, c, rest) →
      ∃ k, k ≤ stream.length ∧ s = foldAppend output (stream.take k) ∧
        rest = stream.drop k ∧
        (done prompt pat s = true ∨
          (s ≠ "" ∧ stream.take k = stream.takeWhile (fun e => e.t < deadline) ∧
            rest = stream.dropWhile (fun e => e.t < deadline))) := by
  induction stream with
  | nil =>
    intro clock output s c rest h
    simp only [readLoop, timeoutResult] at h
    by_cases ho : output = ""
    · rw [if_pos ho] at h
      cases h
    · rw [if_neg ho] at h
      cases h
      exact ⟨0, by simp [foldAppend], by simp [foldAppend], by simp, Or.inr ⟨ho, by simp, by simp⟩⟩
  | cons x tl ih =>
    intro clock output s c rest h
    simp only [readLoop] at h
    by_cases hxt : x.t < deadline
    · rw [if_pos hxt] at h
      by_cases hd : done prompt pat (appendEv output x.ev) = true
      · simp only [hd, if_true] at h
        obtain ⟨hs, _, hrest⟩ := Prod.mk.injEq .. ▸ h
        cases h
        exact ⟨1, by simp, by simp [foldAppend], by simp, Or.inl hd⟩
      · simp only [hd, if_false, Bool.false_eq_true] at h
        obtain ⟨k, hk, hs, hrest, hcase⟩ := ih _ _ _ _ _ h
        refine ⟨k + 1, by simpa using hk, by simpa [foldAppend_cons] using hs,
          by simpa using hrest, ?_⟩
        rcases hcase with hdone | ⟨hne, htk, hdr⟩
        · exact Or.inl hdone
        · refine Or.inr ⟨hne, ?_, ?_⟩
          · simp [List.takeWhile_cons, hxt, htk]
          · simp [List.dropWhile_cons, hxt, hdr]
    · rw [if_neg hxt] at h
      simp only [timeoutResult] at h
      by_cases ho : output = ""
      · rw [if_pos ho] at h
        cases h
      · rw [if_neg ho] at h
        cases h
        exact ⟨0, by simp, by simp [foldAppend], by simp,
          Or.inr ⟨ho, by simp [List.takeWhile_cons, hxt], by simp [List.dropWhile_cons, hxt]⟩⟩

/-- Unfolding of the `read_response_until` wrapper. -/
theorem read_response_until_eq (s : CLIDebugSession) (pat : Option String) (timeout : Nat) :
    read_response_until s pat timeout =
      ((readLoop s.prompt pat (s.clock + timeout) s.clock "" s.stream).1,
        { s with
          clock := (readLoop s.prompt pat (s.clock + timeout) s.clock "" s.stream).2.1,
          stream := (readLoop s.prompt pat (s.clock + timeout) s.clock "" s.stream).2.2 }) := rfl

/-- Reading does not touch the modelled stdin/wait state of the session. -/
theorem read_response_until_stdin_ok (s : CLIDebugSession) (pat : Option String)
    (timeout : Nat) : ((read_response_until s pat timeout).2).stdin_ok = s.stdin_ok := rfl

/-- C1: for every configured prompt, every optional pattern and every
timeout, if `read_response_until` reaches its timeout without the completion
condition having been met on the text accumulated from the events ready
before the deadline, it returns that accumulator as a non-error partial
result when it is non-empty, and fails with `TimedOut` when it is empty. -/
theorem c1_timeout_partial_or_timedOut (s : CLIDebugSession) (pat : Option String)
    (timeout : Nat)
    (h : done s.prompt pat
        (accum (s.stream.takeWhile fun e => e.t < s.clock + timeout)) = false) :
    (read_response_until s pat timeout).1 =
      if accum (s.stream.takeWhile fun e => e.t < s.clock + timeout) = "" then
        .error .timedOut
      else .ok (accum (s.stream.takeWhile fun e => e.t < s.clock + timeout)) := by
  rw [read_response_until_eq,
    readLoop_timeout s.prompt pat (s.clock + timeout) s.stream s.clock "" h]
  rfl

/-- Witness for C1, on both sides of the emptiness split: a session whose
only pre-deadline event is a non-prompt line returns it as a partial `Ok` at
timeout, and a session with no pre-deadline event at all fails with
`TimedOut`. -/
theorem c1_witness :
    (read_response_until
        ⟨[⟨5, .out "hello\n"⟩], 0, true, true, "(gdb)", "quit"⟩ none 10).1 =
      .ok "hello\n"
    ∧ (read_response_until
        ⟨[⟨50, .out "late\n"⟩], 0, true, true, "(gdb)", "quit"⟩ none 10).1 =
      .error .timedOut := by
  constructor
  · have h := c1_timeout_partial_or_timedOut
      ⟨[⟨5, .out "hello\n"⟩], 0, true, true, "(gdb)", "quit"⟩ none 10 (by decide)
    rw [h]
    rfl
  · have h := c1_timeout_partial_or_timedOut
      ⟨[⟨50, .out "late\n"⟩], 0, true, true, "(gdb)", "quit"⟩ none 10 (by decide)
    rw [h]
    rfl

/-- C2: after each appended line the loop terminates successfully exactly
when the completion condition holds — the condition being: with a supplied
pattern, the accumulator contains both the pattern and the prompt substring;
without one, only the prompt substring.  If the condition first holds after
the events `lead` (all ready before the deadline), the call returns `Ok`
with exactly the accumulator at that point, leaving the later events
unconsumed. -/
theorem c2_completion_condition (s : CLIDebugSession) (pat : Option String) (timeout : Nat)
    (lead rest : List TEv)
    (hstream : s.stream = lead ++ rest)
    (hne : lead ≠ [])
    (hlt : ∀ e ∈ lead, e.t < s.clock + timeout)
    (hstage : ∀ j, j < lead.length → 0 < j →
      done s.prompt pat (accum (lead.take j)) = false)
    (hdone : done s.prompt pat (accum lead) = true) :
    (read_response_until s pat timeout).1 = .ok (accum lead)
    ∧ (read_response_until s pat timeout).2.stream = rest
    ∧ (∀ output,
        done s.prompt pat output =
          pat.elim (containsB output s.prompt)
            (fun p => containsB output p && containsB output s.prompt)) := by
  have h := readLoop_complete s.prompt pat (s.clock + timeout) lead rest s.clock ""
    hne hlt (fun j hj0 hjl => hstage j hjl hj0) hdone
  refine ⟨?_, ?_, fun output => by cases pat <;> rfl⟩
  · rw [read_response_until_eq, hstream, h]
    rfl
  · rw [read_response_until_eq, hstream, h]

/-- Witness for C2: with pattern `"*stopped"` and prompt `"(gdb)"`, the loop
does not stop after the first line (pattern present, prompt absent), stops
exactly after the second (both present), and leaves the third event
buffered. -/
theorem c2_witness :
    (read_response_until
        ⟨[⟨1, .out "*stopped,reason\n"⟩, ⟨2, .out "(gdb) \n"⟩, ⟨3, .out "junk\n"⟩],
          0, true, true, "(gdb)", "quit"⟩ (some "*stopped") 10).1 =
      .ok "*stopped,reason\n(gdb) \n"
    ∧ (read_response_until
        ⟨[⟨1, .out "*stopped,reason\n"⟩, ⟨2, .out "(gdb) \n"⟩, ⟨3, .out "junk\n"⟩],
          0, true, true, "(gdb)", "quit"⟩ (some "*stopped") 10).2.stream =
      [⟨3, .out "junk\n"⟩] := by
  obtain ⟨h1, h2, -⟩ := c2_completion_condition
    ⟨[⟨1, .out "*stopped,reason\n"⟩, ⟨2, .out "(gdb) \n"⟩, ⟨3, .out "junk\n"⟩],
      0, true, true, "(gdb)", "quit"⟩ (some "*stopped") 10
    [⟨1, .out "*stopped,reason\n"⟩, ⟨2, .out "(gdb) \n"⟩] [⟨3, .out "junk\n"⟩]
    rfl (by decide) (by decide) (by decide) (by decide)
  constructor
  · rw [h1]
    rfl
  · rw [h2]

/-- Characterization of the variant loop of src/gdb.rs on the timeout path:
it consumes the events ready before the deadline and returns `Ok` with the
literal `"[GDB timeout]"` appended to whatever was accumulated. -/
theorem gdbReadLoop_timeout (deadline : Nat) (stream : List TEv) :
    ∀ (clock : Nat) (output : String),
      done "(gdb)" none (foldAppend output (stream.takeWhile fun e => e.t < deadline)) = false →
      gdbReadLoop deadline clock output stream =
        (.ok (foldAppend output (stream.takeWhile fun e => e.t < deadline) ++ "[GDB timeout]"),
          deadline, stream.dropWhile fun e => e.t < deadline) := by
  induction stream with
  | nil => intro clock output h; rfl
  | cons e rest ih =>
    intro clock output h
    by_cases ht : e.t < deadline
    · have htw : (e :: rest).takeWhile (fun e => e.t < deadline) =
          e :: rest.takeWhile (fun e => e.t < deadline) := by
        simp [List.takeWhile_cons, ht]
      have hdw : (e :: rest).dropWhile (fun e => e.t < deadline) =
          rest.dropWhile (fun e => e.t < deadline) := by
        simp [List.dropWhile_cons, ht]
      rw [htw] at h
      rw [htw, hdw, foldAppend_cons]
      have hstage : done "(gdb)" none (appendEv output e.ev) = false :=
        done_foldAppend_false "(gdb)" none _ _ h
      have hstage' : containsB (appendEv output e.ev) "(gdb)" = false := hstage
      simp only [gdbReadLoop, if_pos ht,
        if_neg (by simp [hstage'] : ¬containsB (appendEv output e.ev) "(gdb)" = true)]
      exact ih (max clock e.t) (appendEv output e.ev) h
    · have htw : (e :: rest).takeWhile (fun e => e.t < deadline) = [] := by
        simp [List.takeWhile_cons, ht]
      have hdw : (e :: rest).dropWhile (fun e => e.t < deadline) = e :: rest := by
        simp [List.dropWhile_cons, ht]
      rw [htw, hdw]
      simp only [gdbReadLoop, if_neg ht]
      rfl

/-- The variant loop of src/gdb.rs never produces an error value. -/
theorem gdbReadLoop_no_error (deadline : Nat) (stream : List TEv) :
    ∀ (clock : Nat) (output : String),
      ∃ str, (gdbReadLoop deadline clock output stream).1 = .ok str := by
  induction stream with
  | nil => intro clock output; exact ⟨output ++ "[GDB timeout]", rfl⟩
  | cons e rest ih =>
    intro clock output
    by_cases ht : e.t < deadline
    · by_cases hd : containsB (appendEv output e.ev) "(gdb)" = true
      · exact ⟨appendEv output e.ev, by simp only [gdbReadLoop, if_pos ht, hd, if_true]⟩
      · obtain ⟨str, hstr⟩ := ih (max clock e.t) (appendEv output e.ev)
        exact ⟨str, by simp only [gdbReadLoop, if_pos ht, hd, if_false, Bool.false_eq_true]; exact hstr⟩
    · exact ⟨output ++ "[GDB timeout]", by simp only [gdbReadLoop, if_neg ht]⟩

/-- C10: the duplicated engine variant `GdbSession::read_response` in
src/gdb.rs is not equivalent to the canonical
`CLIDebugSession::read_response` of src/lib.rs.  On timeout the variant
always returns `Ok` with the fabricated literal `"[GDB timeout]"` appended
to whatever was read; it never produces an error, even when nothing was
read — while the canonical engine (configured with the same `"(gdb)"`
prompt and no pattern) fails with `TimedOut` on an empty accumulator, as the
run on the empty event stream shows concretely. -/
theorem c10_variant_diverges_from_canonical :
    (∀ g : GdbSession,
      done "(gdb)" none
          (accum (g.stream.takeWhile fun e => e.t < g.clock + CHILD_READ_TIMEOUT)) = false →
      (GdbSession.read_response g).1 =
        .ok (accum (g.stream.takeWhile fun e => e.t < g.clock + CHILD_READ_TIMEOUT) ++
          "[GDB timeout]"))
    ∧ (∀ (g : GdbSession) (e : IOErr), (GdbSession.read_response g).1 ≠ .error e)
    ∧ (GdbSession.read_response ⟨[], 0, true, true⟩).1 = .ok "[GDB timeout]"
    ∧ (read_response ⟨[], 0, true, true, "(gdb)", "quit"⟩).1 = .error .timedOut := by
  refine ⟨?_, ?_, rfl, rfl⟩
  · intro g h
    show (gdbReadLoop (g.clock + CHILD_READ_TIMEOUT) g.clock "" g.stream).1 = _
    rw [gdbReadLoop_timeout (g.clock + CHILD_READ_TIMEOUT) g.stream g.clock "" h]
    rfl
  · intro g e
    obtain ⟨str, hstr⟩ := gdbReadLoop_no_error (g.clock + CHILD_READ_TIMEOUT) g.stream g.clock ""
    show (gdbReadLoop (g.clock + CHILD_READ_TIMEOUT) g.clock "" g.stream).1 ≠ .error e
    rw [hstr]
    intro hcon
    cases hcon

/-- Witness for C10: a variant session whose only line is not the prompt
still returns `Ok` at timeout, with the fabricated text appended. -/
theorem c10_witness :
    (GdbSession.read_response ⟨[⟨5, .out "gdb-out\n"⟩], 0, true, true⟩).1 =
      .ok "gdb-out\n[GDB timeout]" := by
  have h := c10_variant_diverges_from_canonical.1 ⟨[⟨5, .out "gdb-out\n"⟩], 0, true, true⟩
    (by decide)
  rw [h]
  rfl

/-- C8 counterexample: a line read that completes with no data on the error
stream is not treated as "no progress" — the select arm appends the
`"[stderr] "` marker unconditionally, so a run whose only event is an empty
stderr read returns `Ok "[stderr] "` at timeout, where a no-progress loop
would have kept the accumulator empty and failed with `TimedOut` (as the
same run on the output stream does). -/
theorem c8_counterexample :
    appendEv "" (Ev.err "") = "[stderr] "
    ∧ appendEv "" (Ev.err "") ≠ ""
    ∧ (read_response_until ⟨[⟨0, .err ""⟩], 0, true, true, "(gdb)", "quit"⟩ none 10).1 =
        .ok "[stderr] "
    ∧ (read_response_until ⟨[⟨0, .out ""⟩], 0, true, true, "(gdb)", "quit"⟩ none 10).1 =
        .error .timedOut := by
  exact ⟨rfl, by decide, rfl, rfl⟩

/-- C8 amended: the read loop never terminates because a stream reached
end-of-stream.  A no-data read on the output stream appends nothing, a
no-data read on the error stream appends exactly the `"[stderr] "` marker;
in either case the loop keeps running, and the call returns only when the
completion condition is met, or when the timeout elapses — with `TimedOut`
on an empty accumulator, or with the non-empty accumulator over every
pre-deadline event. -/
theorem c8_amended_no_eof_termination (s : CLIDebugSession) (pat : Option String)
    (timeout : Nat) :
    (∀ output, appendEv output (Ev.out "") = output)
    ∧ (∀ output, appendEv output (Ev.err "") = output ++ "[stderr] ")
    ∧ (∀ str, (read_response_until s pat timeout).1 = .ok str →
        done s.prompt pat str = true ∨
          (str ≠ "" ∧ str = accum (s.stream.takeWhile fun e => e.t < s.clock + timeout)))
    ∧ (∀ e, (read_response_until s pat timeout).1 = .error e → e = .timedOut) := by
  refine ⟨fun output => String.append_empty output, fun output => rfl, ?_, ?_⟩
  · intro str h
    have h1 : (readLoop s.prompt pat (s.clock + timeout) s.clock "" s.stream).1 = .ok str := h
    obtain ⟨k, -, hs, -, hcase⟩ := readLoop_ok_cases s.prompt pat (s.clock + timeout)
      s.stream s.clock "" str _ _ (by rw [← h1])
    rcases hcase with hdone | ⟨hne, htk, -⟩
    · exact Or.inl hdone
    · refine Or.inr ⟨hne, ?_⟩
      rw [hs, htk]
      rfl
  · intro e h
    have h1 : (readLoop s.prompt pat (s.clock + timeout) s.clock "" s.stream).1 = .error e := h
    exact readLoop_error s.prompt pat (s.clock + timeout) s.stream s.clock "" e _ _
      (by rw [← h1])

/-- Witness for C8 (amended): the inner implications discharged at a
concrete session that completes on its prompt line. -/
theorem c8_amended_witness :
    done "(gdb)" none "(gdb) \n" = true ∨
      ("(gdb) \n" ≠ "" ∧
        "(gdb) \n" =
          accum (([⟨1, .out "(gdb) \n"⟩] : List TEv).takeWhile fun e => e.t < 0 + 10)) :=
  (c8_amended_no_eof_termination
    ⟨[⟨1, .out "(gdb) \n"⟩], 0, true, true, "(gdb)", "quit"⟩ none 10).2.2.1 "(gdb) \n" rfl

/-- C5 counterexample: a concrete `execute_command` run whose main read
contains a stream read that completed with an error.  The select arms of
`read_response_until` bind the `io::Result` of each `read_line` to `_`
(src/lib.rs lines 112 and 115), so the error is discarded — outside any
drain and without being a timeout — and the call still returns `Ok`. -/
theorem c5_counterexample :
    readDiscardsErr ([⟨1, .outFail "x"⟩, ⟨2, .out "(gdb) \n"⟩] : List TEv) = true
    ∧ (execute_command
        ⟨[⟨1, .outFail "x"⟩, ⟨2, .out "(gdb) \n"⟩], 0, true, true, "(gdb)", "quit"⟩
        "continue").1 = .ok "x(gdb) \n" :=
  ⟨rfl, rfl⟩

/-- C5 amended: among the error values the engine itself produces, only the
drains of `execute_command` swallow one, and the only error a read can
produce is `TimedOut`; a failed write in `send_command` and an error from
the main response read are surfaced to the caller.  Errors of the individual
stream reads inside the read loop, however, are discarded everywhere (the
select arms ignore each `read_line` result), never reaching the caller. -/
theorem c5_amended_error_surfacing (s : CLIDebugSession) (command : String) :
    (∀ (pat : Option String) (timeout : Nat) (e : IOErr),
      (read_response_until s pat timeout).1 = .error e → e = .timedOut)
    ∧ (s.stdin_ok = false →
        (execute_command s command).1 = .error (.broken "Broken pipe (os error 32)"))
    ∧ (s.stdin_ok = true →
        ∀ e, (read_response (read_response_until s none one_msecond).2).1 = .error e →
          (execute_command s command).1 = .error e) := by
  refine ⟨?_, ?_, ?_⟩
  · intro pat timeout e h
    have h1 : (readLoop s.prompt pat (s.clock + timeout) s.clock "" s.stream).1 = .error e := h
    exact readLoop_error s.prompt pat (s.clock + timeout) s.stream s.clock "" e _ _
      (by rw [← h1])
  · intro hno
    have hsend : send_command (read_response_until s none one_msecond).2 command =
        .error (.broken "Broken pipe (os error 32)") := by
      unfold send_command
      rw [read_response_until_stdin_ok, hno]
      rfl
    simp only [execute_command]
    rw [hsend]
  · intro hyes e h
    have hsend : send_command (read_response_until s none one_msecond).2 command = .ok () := by
      unfold send_command
      rw [read_response_until_stdin_ok, hyes]
      rfl
    have hp : read_response (read_response_until s none one_msecond).2 =
        (.error e, (read_response (read_response_until s none one_msecond).2).2) := by
      rw [← h]
    simp only [execute_command]
    rw [hsend, hp]

/-- Witness for C5 (amended): the surfacing branches discharged at concrete
sessions — a broken stdin pipe is surfaced from `execute_command`, and a
main-read timeout (no output at all) is surfaced as `TimedOut`. -/
theorem c5_amended_witness :
    (execute_command ⟨[], 0, false, true, "(gdb)", "quit"⟩ "bt").1 =
      .error (.broken "Broken pipe (os error 32)")
    ∧ (execute_command ⟨[], 0, true, true, "(gdb)", "quit"⟩ "bt").1 =
      .error .timedOut :=
  ⟨(c5_amended_error_surfacing ⟨[], 0, false, true, "(gdb)", "quit"⟩ "bt").2.1 rfl,
    (c5_amended_error_surfacing ⟨[], 0, true, true, "(gdb)", "quit"⟩ "bt").2.2 rfl
      .timedOut rfl⟩

/-- C3: `execute_command` first drains with the 1 ms timeout, then sends the
command, then reads the main response with the default timeout, then drains
once more with the 1 ms timeout, returning pre-drain, response and
post-drain concatenated in that order; a drain's error — necessarily a
timeout — contributes the empty string instead of failing the call. -/
theorem c3_execute_command_drain_concat (s : CLIDebugSession) (command m : String)
    (hsend : s.stdin_ok = true)
    (hmain : (read_response (read_response_until s none one_msecond).2).1 = .ok m) :
    (execute_command s command).1 =
      .ok (unwrapOrDefault (read_response_until s none one_msecond).1 ++ m ++
        unwrapOrDefault
          (read_response_until (read_response (read_response_until s none one_msecond).2).2
            none one_msecond).1)
    ∧ one_msecond = 1
    ∧ (∀ e : IOErr, unwrapOrDefault (.error e) = "")
    ∧ (∀ (s' : CLIDebugSession) (e : IOErr),
        (read_response_until s' none one_msecond).1 = .error e → e = .timedOut) := by
  refine ⟨?_, rfl, fun e => rfl, ?_⟩
  · have hsend' : send_command (read_response_until s none one_msecond).2 command = .ok () := by
      unfold send_command
      rw [read_response_until_stdin_ok, hsend]
      rfl
    have hp : read_response (read_response_until s none one_msecond).2 =
        (.ok m, (read_response (read_response_until s none one_msecond).2).2) := by
      rw [← hmain]
    simp only [execute_command]
    rw [hsend', hp]
  · intro s' e h
    have h1 : (readLoop s'.prompt none (s'.clock + one_msecond) s'.clock "" s'.stream).1 =
        .error e := h
    exact readLoop_error s'.prompt none (s'.clock + one_msecond) s'.stream s'.clock "" e _ _
      (by rw [← h1])

/-- Witness for C3: a session with one already-pending line, a two-line
command response, and nothing afterwards — the result is the pre-drained
line, then the response, then the (empty) post-drain, in order. -/
theorem c3_witness :
    (execute_command
        ⟨[⟨0, .out "pending\n"⟩, ⟨500, .out "ok: step\n"⟩, ⟨600, .out "(gdb) \n"⟩],
          0, true, true, "(gdb)", "quit"⟩ "step").1 =
      .ok "pending\nok: step\n(gdb) \n" := by
  have h := (c3_execute_command_drain_concat
    ⟨[⟨0, .out "pending\n"⟩, ⟨500, .out "ok: step\n"⟩, ⟨600, .out "(gdb) \n"⟩],
      0, true, true, "(gdb)", "quit"⟩ "step" "ok: step\n(gdb) \n" rfl rfl).1
  rw [h]
  rfl

/-- After removing a key, looking it up finds nothing. -/
theorem findSession_removeSession (m : Sessions) (id : String) :
    findSession (removeSession m id) id = none := by
  induction m with
  | nil => rfl
  | cons p tl ih =>
    obtain ⟨k, s⟩ := p
    by_cases hk : k = id
    · simp only [removeSession, if_pos hk]
      exact ih
    · simp only [removeSession, if_neg hk, findSession, if_neg hk]
      exact ih

/-- C6: termination is absorbing at the registry level.  When
`gdb_terminate` succeeds on an identifier, that identifier is removed from
the registry, and every subsequent operation naming it — command, load,
wait, or another terminate — returns the "session not found" error and
leaves the registry unchanged. -/
theorem c6_terminate_absorbing (m : Sessions) (id out : String)
    (h : (gdb_terminate m id).1 = .ok out) :
    findSession (gdb_terminate m id).2 id = none
    ∧ (∀ command, gdb_command (gdb_terminate m id).2 id command =
        (.error (notFoundMsg id), (gdb_terminate m id).2))
    ∧ (∀ program arguments, gdb_load (gdb_terminate m id).2 id program arguments =
        (.error (notFoundMsg id), (gdb_terminate m id).2))
    ∧ (∀ timeout, gdb_wait (gdb_terminate m id).2 id timeout =
        (.error (notFoundMsg id), (gdb_terminate m id).2))
    ∧ gdb_terminate (gdb_terminate m id).2 id =
        (.error (notFoundMsg id), (gdb_terminate m id).2) := by
  have h2 : (gdb_terminate m id).2 = removeSession m id := by
    unfold gdb_terminate at h ⊢
    cases hf : findSession m id with
    | none => rw [hf] at h; simp at h
    | some s =>
      rw [hf] at h
      rcases hterm : terminate s with ⟨r, s'⟩
      simp only [hterm] at h ⊢
      cases r with
      | error e => simp at h
      | ok u => rfl
  rw [h2]
  have hfind := findSession_removeSession m id
  refine ⟨hfind, ?_, ?_, ?_, ?_⟩
  · intro command
    unfold gdb_command
    rw [hfind]
  · intro program arguments
    unfold gdb_load
    rw [hfind]
  · intro timeout
    unfold gdb_wait
    rw [hfind]
  · unfold gdb_terminate
    rw [hfind]

/-- Witness for C6: terminating the only session of a one-entry registry
succeeds, removes the identifier, and a subsequent command on it fails with
the "session not found" error. -/
theorem c6_witness :
    (gdb_terminate [("gdb-0", ⟨[], 0, true, true, "(gdb)", "quit"⟩)] "gdb-0").1 =
      .ok "GDB session terminated"
    ∧ findSession
        (gdb_terminate [("gdb-0", ⟨[], 0, true, true, "(gdb)", "quit"⟩)] "gdb-0").2
        "gdb-0" = none
    ∧ gdb_command
        (gdb_terminate [("gdb-0", ⟨[], 0, true, true, "(gdb)", "quit"⟩)] "gdb-0").2
        "gdb-0" "info registers" =
      (.error (notFoundMsg "gdb-0"),
        (gdb_terminate [("gdb-0", ⟨[], 0, true, true, "(gdb)", "quit"⟩)] "gdb-0").2) := by
  have h := c6_terminate_absorbing [("gdb-0", ⟨[], 0, true, true, "(gdb)", "quit"⟩)]
    "gdb-0" "GDB session terminated" rfl
  exact ⟨rfl, h.1, h.2.1 "info registers"⟩

/-- Identifier arithmetic: as long as the `AtomicUsize` state does not wrap,
`n` sequential calls from state `st` return `(st + k) % 2 ^ 32` for
`k < n`. -/
theorem genIds_eq (n : Nat) : ∀ st, st + n ≤ 2 ^ 64 →
    genIds st n = (List.range n).map (fun k => (st + k) % 2 ^ 32) := by
  induction n with
  | zero => intro st _; rfl
  | succ n' ih =>
    intro st h
    rcases Nat.lt_or_ge (st + 1) (2 ^ 64) with hlt | hge
    · have hstep : genIds st (n' + 1) = (st % 2 ^ 32) :: genIds ((st + 1) % 2 ^ 64) n' := rfl
      have hmod : (st + 1) % 2 ^ 64 = st + 1 := Nat.mod_eq_of_lt hlt
      rw [hstep, hmod, ih (st + 1) (by omega), List.range_succ_eq_map, List.map_cons,
        List.map_map]
      refine List.cons_eq_cons.mpr ⟨by simp, ?_⟩
      apply List.map_congr_left
      intro k _
      show (st + 1 + k) % 2 ^ 32 = (st + (k + 1)) % 2 ^ 32
      congr 1
      omega
    · have hn : n' = 0 := by omega
      subst hn
      have hstep : genIds st 1 = [st % 2 ^ 32] := rfl
      have hr1 : List.range 1 = [0] := rfl
      rw [hstep, hr1]
      simp

/-- C9 counterexample: the identifier is the counter truncated `as u32`, so
the claim's "for every N" fails at `N = 2 ^ 32 + 1` — the first and the
`2 ^ 32`-th call both return identifier `0`. -/
theorem c9_counterexample : ¬ (genIds 0 (2 ^ 32 + 1)).Nodup := by
  intro hnodup
  rw [genIds_eq (2 ^ 32 + 1) 0 (by norm_num)] at hnodup
  have hsub : List.Sublist [0, 2 ^ 32] (List.range (2 ^ 32 + 1)) := by
    rw [List.range_succ]
    exact (List.singleton_sublist.mpr (List.mem_range.mpr (by norm_num))).append
      (List.Sublist.refl _)
  have hnodup2 := hnodup.sublist (hsub.map (fun k => (0 + k) % 2 ^ 32))
  have hvals : ([0, 2 ^ 32].map (fun k => (0 + k) % 2 ^ 32)) = [0, 0] := by norm_num
  rw [hvals] at hnodup2
  simp at hnodup2

/-- C9 amended: the session-identifier counter starts at 0, each call
returns the previous value truncated `as u32` and increments; for every
`N ≤ 2 ^ 32`, `N` sequential `generate_session_id` calls yield exactly
`0, 1, …, N − 1` — pairwise distinct, never reused within those calls.
(Beyond `2 ^ 32` calls the `u32` truncation makes identifiers repeat.) -/
theorem c9_amended_distinct_within_u32 (N : Nat) (h : N ≤ 2 ^ 32) :
    (genIds 0 N).Nodup ∧ genIds 0 N = List.range N := by
  have hr := genIds_eq N 0 (by calc 0 + N = N := by omega
                                 _ ≤ 2 ^ 32 := h
                                 _ ≤ 2 ^ 64 := by norm_num)
  have hmap : (List.range N).map (fun k => (0 + k) % 2 ^ 32) = List.range N := by
    have hid : ∀ k ∈ List.range N, (0 + k) % 2 ^ 32 = k := fun k hk => by
      rw [Nat.zero_add, Nat.mod_eq_of_lt (lt_of_lt_of_le (List.mem_range.mp hk) h)]
    rw [List.map_congr_left hid]
    exact List.map_id _
  rw [hr, hmap]
  exact ⟨List.nodup_range N, rfl⟩

/-- Witness for C9 (amended): five sequential calls yield the five distinct
identifiers 0 through 4. -/
theorem c9_witness : (genIds 0 5).Nodup ∧ genIds 0 5 = List.range 5 :=
  c9_amended_distinct_within_u32 5 (by norm_num)

/-- In-order concatenation of the per-event chunks: each stdout line
unmarked, each stderr line behind its `"[stderr] "` marker. -/
def chunkConcat (evs : List TEv) : String :=
  evs.foldr (fun e acc => chunkOf e.ev ++ acc) ""

/-- The loop's left fold of appends equals the in-order chunk
concatenation. -/
theorem foldAppend_eq_chunkConcat (evs : List TEv) :
    ∀ output, foldAppend output evs = output ++ chunkConcat evs := by
  induction evs with
  | nil => intro output; exact (String.append_empty output).symm
  | cons e tl ih =>
    intro output
    rw [foldAppend_cons, ih (appendEv output e.ev)]
    show output ++ chunkOf e.ev ++ chunkConcat tl = output ++ (chunkOf e.ev ++ chunkConcat tl)
    rw [String.append_assoc]

theorem outLines_cons_out (t : Nat) (line : String) (evs : List TEv) :
    outLines (⟨t, .out line⟩ :: evs) = line :: outLines evs := rfl

theorem outLines_cons_err (t : Nat) (line : String) (evs : List TEv) :
    outLines (⟨t, .err line⟩ :: evs) = outLines evs := rfl

theorem errLines_cons_out (t : Nat) (line : String) (evs : List TEv) :
    errLines (⟨t, .out line⟩ :: evs) = errLines evs := rfl

theorem errLines_cons_err (t : Nat) (line : String) (evs : List TEv) :
    errLines (⟨t, .err line⟩ :: evs) = line :: errLines evs := rfl

/-- Any consumed initial segment of an interleaving projects to an initial
segment of each stream's line sequence, in that stream's own order. -/
theorem Interleaves.take {A B : List String} {evs : List TEv}
    (h : Interleaves A B evs) :
    ∀ k, ∃ A2 B2, A = outLines (evs.take k) ++ A2 ∧ B = errLines (evs.take k) ++ B2 := by
  induction h with
  | nil =>
    intro k
    exact ⟨[], [], by simp [outLines], by simp [errLines]⟩
  | @out A' B' evs' t line hI ih =>
    intro k
    cases k with
    | zero => exact ⟨line :: A', B', by simp [outLines], by simp [errLines]⟩
    | succ k' =>
      obtain ⟨A2, B2, hA, hB⟩ := ih k'
      refine ⟨A2, B2, ?_, ?_⟩
      · rw [List.take_succ_cons, outLines_cons_out, hA]
        rfl
      · rw [List.take_succ_cons, errLines_cons_out, hB]
  | @err A' B' evs' t line hI ih =>
    intro k
    cases k with
    | zero => exact ⟨A', line :: B', by simp [outLines], by simp [errLines]⟩
    | succ k' =>
      obtain ⟨A2, B2, hA, hB⟩ := ih k'
      refine ⟨A2, B2, ?_, ?_⟩
      · rw [List.take_succ_cons, outLines_cons_err, hA]
      · rw [List.take_succ_cons, errLines_cons_err, hB]
        rfl

/-- C7: for every interleaving of stdout line sequence `A` and stderr line
sequence `B` seen within one `read_response_until` call, any `Ok` result is
the in-order concatenation of the consumed events' chunks — the unmarked
chunks being an initial segment of `A` in `A`'s order and the
`"[stderr] "`-marked chunks an initial segment of `B` in `B`'s order — with
the unconsumed events left buffered. -/
theorem c7_per_stream_order (s : CLIDebugSession) (pat : Option String) (timeout : Nat)
    (A B : List String) (hAB : Interleaves A B s.stream)
    (str : String) (hok : (read_response_until s pat timeout).1 = .ok str) :
    ∃ k A2 B2,
      A = outLines (s.stream.take k) ++ A2
      ∧ B = errLines (s.stream.take k) ++ B2
      ∧ str = chunkConcat (s.stream.take k)
      ∧ (read_response_until s pat timeout).2.stream = s.stream.drop k := by
  have h1 : (readLoop s.prompt pat (s.clock + timeout) s.clock "" s.stream).1 = .ok str := hok
  obtain ⟨k, -, hs, hrest, -⟩ := readLoop_ok_cases s.prompt pat (s.clock + timeout)
    s.stream s.clock "" str _ _ (by rw [← h1])
  obtain ⟨A2, B2, hA, hB⟩ := hAB.take k
  refine ⟨k, A2, B2, hA, hB, ?_, ?_⟩
  · rw [hs, foldAppend_eq_chunkConcat, String.empty_append]
  · exact hrest

/-- Witness for C7: an interleaving of two stdout lines and one stderr line;
the run completes on the prompt line having consumed all three events,
yielding the marked, per-stream-ordered concatenation. -/
theorem c7_witness :
    ∃ k A2 B2,
      ["a\n", "(gdb) \n"] =
        outLines (([⟨1, .out "a\n"⟩, ⟨2, .err "e1\n"⟩, ⟨3, .out "(gdb) \n"⟩] :
          List TEv).take k) ++ A2
      ∧ ["e1\n"] =
        errLines (([⟨1, .out "a\n"⟩, ⟨2, .err "e1\n"⟩, ⟨3, .out "(gdb) \n"⟩] :
          List TEv).take k) ++ B2
      ∧ "a\n[stderr] e1\n(gdb) \n" =
        chunkConcat (([⟨1, .out "a\n"⟩, ⟨2, .err "e1\n"⟩, ⟨3, .out "(gdb) \n"⟩] :
          List TEv).take k)
      ∧ (read_response_until
          ⟨[⟨1, .out "a\n"⟩, ⟨2, .err "e1\n"⟩, ⟨3, .out "(gdb) \n"⟩],
            0, true, true, "(gdb)", "quit"⟩ none 10).2.stream =
        ([⟨1, .out "a\n"⟩, ⟨2, .err "e1\n"⟩, ⟨3, .out "(gdb) \n"⟩] : List TEv).drop k :=
  c7_per_stream_order
    ⟨[⟨1, .out "a\n"⟩, ⟨2, .err "e1\n"⟩, ⟨3, .out "(gdb) \n"⟩],
      0, true, true, "(gdb)", "quit"⟩ none 10 ["a\n", "(gdb) \n"] ["e1\n"]
    (.out 1 "a\n" (.err 2 "e1\n" (.out 3 "(gdb) \n" .nil)))
    "a\n[stderr] e1\n(gdb) \n" rfl

/-- A child output stream at byte granularity: each byte with the instant it
arrives, in arrival order. -/
abbrev ByteStream := List (Nat × Char)

/-- Completion of one `read_line` on a byte stream: the line is complete
when the first newline arrives.  Returns the line's characters (newline
included), the instant of that newline, and the bytes after it; `none` when
no newline ever arrives (the future stays pending). -/
def splitLine : ByteStream → Option (List Char × Nat × ByteStream)
  | [] => none
  | p :: rest =>
    if p.2 = '\n' then some ([p.2], p.1, rest)
    else
      match splitLine rest with
      | none => none
      | some (cs, tn, r) => some (p.2 :: cs, tn, r)

/-- Bytes of a stream a pending `read_line` future has already pulled in
when it is dropped at instant `cut`: everything that arrived strictly before
`cut` is inside the dropped future and is lost; only bytes from `cut` on
remain readable. -/
def dropConsumed (cut : Nat) (s : ByteStream) : ByteStream :=
  s.filter fun p => cut ≤ p.1

theorem splitLine_length : ∀ (s : ByteStream) (cs : List Char) (t : Nat) (r : ByteStream),
    splitLine s = some (cs, t, r) → r.length < s.length := by
  intro s
  induction s with
  | nil => intro cs t r h; cases h
  | cons p tl ih =>
    intro cs t r h
    by_cases hc : p.2 = '\n'
    · simp only [splitLine, if_pos hc] at h
      cases h
      simp
    · simp only [splitLine, if_neg hc] at h
      cases hs : splitLine tl with
      | none => rw [hs] at h; cases h
      | some q =>
        obtain ⟨cs', tn', r'⟩ := q
        rw [hs] at h
        cases h
        have hlen := ih _ _ _ hs
        simp only [List.length_cons]
        omega

/-- Byte-level model of the select loop of `read_response_until`, one level
below the line-granular `readLoop`: needed to express what happens to a line
that is still incomplete when another branch wins the race.  Per tokio's
documentation, `AsyncBufReadExt::read_line` is not cancellation safe: used
as a `tokio::select!` event, "if some other branch completes first, then
some data may have been partially read, and this data is lost".  Each
iteration the stdout branch completes at the instant its first newline
arrives, the stderr branch likewise, and the sleep at the deadline;
whichever instant is least wins (ties resolved stdout first, then stderr —
`select!` picks among simultaneously ready branches pseudo-randomly, and the
inputs used below have no ties).  The losing `read_line` futures are
dropped, and with them every byte that had already arrived.  Completion,
accumulation and the timeout result are those of the line-level model.  The
`fuel` argument only makes the recursion structural; it is irrelevant on
inputs that do not exhaust it (the source loop has no such bound). -/
def readBytesLoop (prompt : String) (pat : Option String) (deadline : Nat) :
    Nat → String → ByteStream → ByteStream → Except IOErr String × ByteStream × ByteStream
  | 0, output, so, se =>
    (timeoutResult output, dropConsumed deadline so, dropConsumed deadline se)
  | fuel + 1, output, so, se =>
    match splitLine so, splitLine se with
    | some (lo, tO, ro), some (le, tE, re) =>
      if tO < deadline ∧ tO ≤ tE then
        let output' := output ++ String.mk lo
        if done prompt pat output' then (.ok output', ro, dropConsumed tO se)
        else readBytesLoop prompt pat deadline fuel output' ro (dropConsumed tO se)
      else if tE < deadline then
        let output' := output ++ "[stderr] " ++ String.mk le
        if done prompt pat output' then (.ok output', dropConsumed tE so, re)
        else readBytesLoop prompt pat deadline fuel output' (dropConsumed tE so) re
      else (timeoutResult output, dropConsumed deadline so, dropConsumed deadline se)
    | some (lo, tO, ro), none =>
      if tO < deadline then
        let output' := output ++ String.mk lo
        if done prompt pat output' then (.ok output', ro, dropConsumed tO se)
        else readBytesLoop prompt pat deadline fuel output' ro (dropConsumed tO se)
      else (timeoutResult output, dropConsumed deadline so, dropConsumed deadline se)
    | none, some (le, tE, re) =>
      if tE < deadline then
        let output' := output ++ "[stderr] " ++ String.mk le
        if done prompt pat output' then (.ok output', dropConsumed tE so, re)
        else readBytesLoop prompt pat deadline fuel output' (dropConsumed tE so) re
      else (timeoutResult output, dropConsumed deadline so, dropConsumed deadline se)
    | none, none =>
      (timeoutResult output, dropConsumed deadline so, dropConsumed deadline se)

/-- C4 (code bug): the claimed invariant — every byte read is either
appended to the accumulator or deferred for a later read — is violated by
the source's use of the non-cancel-safe `read_line` inside `tokio::select!`.
Concrete failing run, prompt `"(gdb)"`, deadline 10: stdout delivers bytes
'a' (t=1) and 'b' (t=2) of a line that never completes; stderr completes the
line `"x\n"` at t=4, winning the race; the dropped stdout future takes 'a'
and 'b' with it.  The call returns `Ok "[stderr] x\n"` with both leftover
streams empty: the bytes 'a' and 'b' are in neither the accumulator nor any
buffer — they are lost, not deferred. -/
theorem c4_cancelled_line_bytes_lost :
    readBytesLoop "(gdb)" none 10 5 "" [(1, 'a'), (2, 'b')] [(3, 'x'), (4, '\n')] =
      (.ok "[stderr] x\n", [], [])
    ∧ 'a' ∉ "[stderr] x\n".data
    ∧ 'b' ∉ "[stderr] x\n".data := by
  exact ⟨rfl, by decide, by decide⟩

end Dbgmcp
